import Mathlib

/-!
Shallow embedding of the music-stats plugin core: the stats aggregation
engine (`computeStats`, `aggregateDailyStats`, `updateStreak`), the
event store (`StatsDatabase.getPlayRecords`, `exportData`, `importData`),
and the cloud reconciliation engine (`syncDriveNow` decision procedure,
`mergeExports`, `parseExport`, `ensureAccessToken`).

Modelling conventions, applied uniformly:
* JavaScript numbers that only ever hold integral values (timestamps in
  epoch milliseconds, durations in whole seconds, day indices) are `Nat`
  or `Int`; fractional quantities (minutes as `durationListened / 60`)
  are `Rat`, which the source arithmetic (division by 60, comparisons,
  `Math.round`) computes exactly on these inputs.
* JavaScript `Map` objects and plain objects used as maps are
  insertion-ordered association lists `List (String × β)`; `Map.set` /
  property assignment on an existing key replaces in place, on a fresh
  key appends at the end, exactly as in the JS runtimes the code targets.
* JavaScript truthiness is modelled explicitly where the source branches
  on it (`0`, the empty string, `null` and `undefined` are falsy).
* Calendar dates (`YYYY-MM-DD` strings obtained from
  `toISOString().split('T')[0]` and re-parsed with `new Date`) are
  represented by their UTC day index, an `Int`; the source computes
  `diffDays` from midnight-to-midnight differences, which are exact
  multiples of a day, so the day-index difference is the same integer.
-/

/-- One listening event, `PlayRecord` of `types.ts`.  Optional string
fields are `Option String`; the local autoincrement `id` is omitted: it
is assigned on append, is not part of record identity, and no claim
mentions it. -/
structure PlayRecord where
  songId : String
  songTitle : String
  artistId : String
  artistName : String
  artistImageUrl : Option String := none
  albumName : Option String := none
  thumbnailUrl : Option String := none
  timestamp : Nat
  durationListened : Nat
  totalDuration : Nat
  skipped : Bool
  completed : Bool
deriving DecidableEq, Repr

/-- Truthiness of an optional number (JS `undefined` and `0` are falsy). -/
def jsTruthyNum : Option Nat → Bool
  | none => false
  | some n => n != 0

/-- Truthiness of an optional string (JS `undefined`, `null` and the
empty string are falsy). -/
def jsTruthyStr : Option String → Bool
  | none => false
  | some s => s != ""

/-- The singleton streak record of the database schema.  The stored
`lastListenDate` string is represented by its UTC day index. -/
structure Streak where
  lastListenDate : Int
  currentStreak : Nat
deriving DecidableEq, Repr

/-- UTC calendar-day index of an epoch-millisecond timestamp, the model
of `new Date(timestamp).toISOString().split('T')[0]` followed by
re-parsing with `new Date(...)`. -/
def dayOfTimestamp (timestamp : Nat) : Int :=
  (timestamp : Int) / 86400000

/-- StreakTracker: `StatsBackend.updateStreak`, acting on the stored
streak record.  `today` is the day index of the incoming event.  With no
stored record a record with count 1 is created; otherwise the source
computes `diffDays` and increments on `diffDays === 1`, resets on
`diffDays > 1`, and leaves the record untouched in every other case
(which covers both `diffDays === 0` and negative differences). -/
def updateStreak (today : Int) (streakData : Option Streak) : Option Streak :=
  match streakData with
  | none => some ⟨today, 1⟩
  | some s =>
    let diffDays : Int := today - s.lastListenDate
    if diffDays = 1 then some ⟨today, s.currentStreak + 1⟩
    else if diffDays > 1 then some ⟨today, 1⟩
    else some s

/-- Timestamp-descending order on play records, the comparator
`(a, b) => b.timestamp - a.timestamp` of `getPlayRecords`. -/
def tsDescRel (a b : PlayRecord) : Prop := b.timestamp ≤ a.timestamp

instance : DecidableRel tsDescRel := fun a b =>
  inferInstanceAs (Decidable (b.timestamp ≤ a.timestamp))

instance : IsTotal PlayRecord tsDescRel :=
  ⟨fun a b => Nat.le_total b.timestamp a.timestamp⟩

instance : IsTrans PlayRecord tsDescRel :=
  ⟨fun _ _ _ hab hbc => Nat.le_trans hbc hab⟩

/-- EventStore query: `StatsDatabase.getPlayRecords`.  The source guards
`if (startDate && endDate)` and `else if (startDate)` on JS truthiness,
then sorts a copy by `(a, b) => b.timestamp - a.timestamp`, i.e. by
timestamp descending. -/
def getPlayRecords (data : List PlayRecord) (startDate endDate : Option Nat) :
    List PlayRecord :=
  let records :=
    if jsTruthyNum startDate && jsTruthyNum endDate then
      data.filter fun r =>
        decide (startDate.getD 0 ≤ r.timestamp) && decide (r.timestamp ≤ endDate.getD 0)
    else if jsTruthyNum startDate then
      data.filter fun r => decide (startDate.getD 0 ≤ r.timestamp)
    else data
  records.insertionSort tsDescRel

section StreakTheorems

/-- C5: the streak update follows the four-case rule on the day
difference `diffDays` between the event date and the stored
`lastListenDate` — `0` leaves the record unchanged, `1` increments the
count and advances the date, `> 1` resets the count to 1 and advances
the date, `< 0` leaves the record unchanged — a missing record is
created with count 1, and the scenario of events on days D, D, D+1, D+3
yields counts 1, 1, 2, 1. -/
theorem updateStreak_four_case_rule (d : Int) (s : Streak) :
    updateStreak d none = some ⟨d, 1⟩ ∧
    (d - s.lastListenDate = 0 → updateStreak d (some s) = some s) ∧
    (d - s.lastListenDate = 1 →
      updateStreak d (some s) = some ⟨d, s.currentStreak + 1⟩) ∧
    (d - s.lastListenDate > 1 → updateStreak d (some s) = some ⟨d, 1⟩) ∧
    (d - s.lastListenDate < 0 → updateStreak d (some s) = some s) ∧
    ((updateStreak d none).map Streak.currentStreak = some 1 ∧
      (updateStreak d (updateStreak d none)).map Streak.currentStreak = some 1 ∧
      (updateStreak (d + 1) (updateStreak d (updateStreak d none))).map
        Streak.currentStreak = some 2 ∧
      (updateStreak (d + 3) (updateStreak (d + 1)
        (updateStreak d (updateStreak d none)))).map Streak.currentStreak
        = some 1) := by
  refine ⟨rfl, ?_, ?_, ?_, ?_, ?_⟩
  · intro h
    simp only [updateStreak]
    rw [if_neg (by omega), if_neg (by omega)]
  · intro h
    simp only [updateStreak]
    rw [if_pos h]
  · intro h
    simp only [updateStreak]
    rw [if_neg (by omega), if_pos h]
  · intro h
    simp only [updateStreak]
    rw [if_neg (by omega), if_neg (by omega)]
  · simp only [updateStreak]
    norm_num

/-- Witness for C5 at concrete inputs: day 100 with a stored streak of 2
on day 100, 99, 101 and 97 exercises the unchanged, incremented, reset
and out-of-order cases. -/
theorem updateStreak_four_case_rule_witness :
    updateStreak 100 (some ⟨100, 2⟩) = some ⟨100, 2⟩ ∧
    updateStreak 100 (some ⟨99, 2⟩) = some ⟨100, 3⟩ ∧
    updateStreak 100 (some ⟨97, 2⟩) = some ⟨100, 1⟩ ∧
    updateStreak 100 (some ⟨103, 2⟩) = some ⟨103, 2⟩ := by
  refine ⟨?_, ?_, ?_, ?_⟩
  · exact (updateStreak_four_case_rule 100 ⟨100, 2⟩).2.1 (by decide)
  · exact (updateStreak_four_case_rule 100 ⟨99, 2⟩).2.2.1 (by decide)
  · exact (updateStreak_four_case_rule 100 ⟨97, 2⟩).2.2.2.1 (by decide)
  · exact (updateStreak_four_case_rule 100 ⟨103, 2⟩).2.2.2.2.1 (by decide)

end StreakTheorems

section QueryTheorems

/-- A concrete record with timestamp 5, used to exercise the query. -/
def queryProbeRecord : PlayRecord :=
  { songId := "s1", songTitle := "t1", artistId := "a1", artistName := "n1"
    timestamp := 5, durationListened := 40, totalDuration := 60
    skipped := false, completed := true }

/-- C7 counterexample: with no start bound and an inclusive end bound of
3, the query returns a record whose timestamp 5 exceeds the bound — an
end bound given without a start bound is ignored by the source, so the
result is not restricted to records inside the bounds. -/
theorem getPlayRecords_end_only_bound_ignored :
    getPlayRecords [queryProbeRecord] none (some 3) = [queryProbeRecord] ∧
      ¬ queryProbeRecord.timestamp ≤ 3 := by
  constructor
  · rfl
  · decide

/-- C7 amended: the query result is sorted by timestamp descending and
is a permutation of the records selected by the source's rule — both
bounds applied when both are truthy (present and nonzero), only the
start bound applied when only it is truthy, and all records (the end
bound ignored) otherwise. -/
theorem getPlayRecords_sorted_filter (data : List PlayRecord)
    (startDate endDate : Option Nat) :
    List.Sorted tsDescRel (getPlayRecords data startDate endDate) ∧
    List.Perm (getPlayRecords data startDate endDate)
      (if jsTruthyNum startDate && jsTruthyNum endDate then
        data.filter fun r =>
          decide (startDate.getD 0 ≤ r.timestamp) &&
            decide (r.timestamp ≤ endDate.getD 0)
      else if jsTruthyNum startDate then
        data.filter fun r => decide (startDate.getD 0 ≤ r.timestamp)
      else data) := by
  constructor
  · exact List.sorted_insertionSort tsDescRel _
  · exact List.perm_insertionSort tsDescRel _

end QueryTheorems

/-- Qualified-play test of `computeStats`:
`record.durationListened >= 30`. -/
def isQualifiedPlay (r : PlayRecord) : Bool :=
  decide (30 ≤ r.durationListened)

/-- Listened minutes contributed by one record,
`record.durationListened / 60`. -/
def minutesListened (r : PlayRecord) : ℚ :=
  (r.durationListened : ℚ) / 60

/-- The rounding `Math.round`, exact on rationals: round half up. -/
def jsRound (q : ℚ) : ℤ :=
  ⌊q + 1 / 2⌋

/-- First-match lookup in an insertion-ordered association list, the
read side of a JS `Map` / plain-object map. -/
def lookupKey {β : Type} : List (String × β) → String → Option β
  | [], _ => none
  | (k, v) :: rest, key => if k = key then some v else lookupKey rest key

/-- Write side of a JS `Map` / plain-object map: replace the value at an
existing key in place, append a fresh key at the end. -/
def setKey {β : Type} : List (String × β) → String → β → List (String × β)
  | [], key, v => [(key, v)]
  | (k, w) :: rest, key, v =>
    if k = key then (key, v) :: rest else (k, w) :: setKey rest key v

theorem lookupKey_setKey {β : Type} (m : List (String × β)) (key : String)
    (v : β) (id : String) :
    lookupKey (setKey m key v) id = if key = id then some v else lookupKey m id := by
  induction m with
  | nil =>
    by_cases h : key = id <;> simp [setKey, lookupKey, h]
  | cons p rest ih =>
    obtain ⟨k, w⟩ := p
    by_cases hk : k = key
    · subst hk
      by_cases h : k = id <;> simp [setKey, lookupKey, h]
    · by_cases h : k = id
      · subst h
        have : ¬ key = k := fun hc => hk hc.symm
        simp [setKey, lookupKey, hk, this]
      · simp [setKey, lookupKey, hk, h, ih]

theorem lookupKey_append_single {β : Type} (m : List (String × β))
    (key : String) (v : β) (id : String) :
    lookupKey (m ++ [(key, v)]) id =
      match lookupKey m id with
      | some w => some w
      | none => if key = id then some v else none := by
  induction m with
  | nil => simp [lookupKey]
  | cons p rest ih =>
    obtain ⟨k, w⟩ := p
    by_cases h : k = id <;> simp [lookupKey, h, ih]

/-- Projection of a map value with a default, used to read a tally out
of one of the aggregation maps (0 for a key never seen). -/
def mapValueAt {β γ : Type} (proj : β → γ) (z : γ)
    (m : List (String × β)) (id : String) : γ :=
  ((lookupKey m id).map proj).getD z

/-- Per-song accumulator of `computeStats` (`songPlayMap` values). -/
structure SongAgg where
  title : String
  artist : String
  plays : Nat
  minutes : ℚ
  imageUrl : Option String
deriving DecidableEq, Repr

/-- Per-artist accumulator of `computeStats` (`artistPlayMap` values). -/
structure ArtistAgg where
  name : String
  plays : Nat
  minutes : ℚ
  imageUrl : Option String
deriving DecidableEq, Repr

/-- Per-song skip accumulator of `computeStats` (`skipMap` values). -/
structure SkipAgg where
  title : String
  artist : String
  skips : Nat
  plays : Nat
  imageUrl : Option String
deriving DecidableEq, Repr

/-- One loop iteration of `computeStats` on `songPlayMap`: a qualified
play increments `plays`, every record adds its listened minutes, and the
first truthy thumbnail is retained (first-write-wins). -/
def stepSongMap (m : List (String × SongAgg)) (r : PlayRecord) :
    List (String × SongAgg) :=
  match lookupKey m r.songId with
  | some ex =>
    setKey m r.songId
      { ex with
        plays := ex.plays + (if isQualifiedPlay r then 1 else 0)
        minutes := ex.minutes + minutesListened r
        imageUrl :=
          if !jsTruthyStr ex.imageUrl && jsTruthyStr r.thumbnailUrl then
            r.thumbnailUrl
          else ex.imageUrl }
  | none =>
    m ++ [(r.songId,
      { title := r.songTitle, artist := r.artistName
        plays := if isQualifiedPlay r then 1 else 0
        minutes := minutesListened r
        imageUrl := r.thumbnailUrl })]

/-- One loop iteration of `computeStats` on `artistPlayMap`. -/
def stepArtistMap (m : List (String × ArtistAgg)) (r : PlayRecord) :
    List (String × ArtistAgg) :=
  match lookupKey m r.artistId with
  | some ex =>
    setKey m r.artistId
      { ex with
        plays := ex.plays + (if isQualifiedPlay r then 1 else 0)
        minutes := ex.minutes + minutesListened r
        imageUrl :=
          if !jsTruthyStr ex.imageUrl && jsTruthyStr r.artistImageUrl then
            r.artistImageUrl
          else ex.imageUrl }
  | none =>
    m ++ [(r.artistId,
      { name := r.artistName
        plays := if isQualifiedPlay r then 1 else 0
        minutes := minutesListened r
        imageUrl := r.artistImageUrl })]

/-- One loop iteration of `computeStats` on `skipMap`: a qualified play
increments `plays`, a skipped record increments `skips`. -/
def stepSkipMap (m : List (String × SkipAgg)) (r : PlayRecord) :
    List (String × SkipAgg) :=
  match lookupKey m r.songId with
  | some ex =>
    setKey m r.songId
      { ex with
        plays := ex.plays + (if isQualifiedPlay r then 1 else 0)
        skips := ex.skips + (if r.skipped then 1 else 0)
        imageUrl :=
          if !jsTruthyStr ex.imageUrl && jsTruthyStr r.thumbnailUrl then
            r.thumbnailUrl
          else ex.imageUrl }
  | none =>
    m ++ [(r.songId,
      { title := r.songTitle, artist := r.artistName
        skips := if r.skipped then 1 else 0
        plays := if isQualifiedPlay r then 1 else 0
        imageUrl := r.thumbnailUrl })]

/-- The `songPlayMap` of `computeStats` after its single pass over all
records. -/
def songPlayMap (records : List PlayRecord) : List (String × SongAgg) :=
  records.foldl stepSongMap []

/-- The `artistPlayMap` of `computeStats`. -/
def artistPlayMap (records : List PlayRecord) : List (String × ArtistAgg) :=
  records.foldl stepArtistMap []

/-- The `skipMap` of `computeStats`. -/
def skipMap (records : List PlayRecord) : List (String × SkipAgg) :=
  records.foldl stepSkipMap []

/-- The `totalSongs` of `computeStats`:
`allRecords.filter(isQualifiedPlay).length`. -/
def totalSongs (records : List PlayRecord) : Nat :=
  (records.filter isQualifiedPlay).length

/-- The pre-rounding total of `computeStats`:
`allRecords.reduce((sum, r) => sum + r.durationListened / 60, 0)`. -/
def totalMinutesExact (records : List PlayRecord) : ℚ :=
  records.foldl (fun sum r => sum + minutesListened r) 0

/-- The `totalMinutes` of `computeStats`, rounded with `Math.round`. -/
def totalMinutes (records : List PlayRecord) : ℤ :=
  jsRound (totalMinutesExact records)

section FoldLemmas

variable {M R β : Type}

theorem foldl_measure_add [AddCommMonoid β] (step : M → R → M)
    (measure : M → β) (f : R → β)
    (hstep : ∀ m r, measure (step m r) = measure m + f r) :
    ∀ (recs : List R) (m : M),
      measure (recs.foldl step m) = measure m + (recs.map f).sum := by
  intro recs
  induction recs with
  | nil => intro m; simp
  | cons r rest ih =>
    intro m
    simp only [List.foldl_cons, List.map_cons, List.sum_cons]
    rw [ih, hstep, add_assoc]

theorem length_filter_eq_sum_ite [AddCommMonoid β] (p : R → Bool) (f : R → β)
    (recs : List R) :
    ((recs.filter p).map f).sum = (recs.map fun r => if p r then f r else 0).sum := by
  induction recs with
  | nil => simp
  | cons r rest ih =>
    by_cases h : p r <;> simp [List.filter_cons, h, ih]

end FoldLemmas

section SongMapLemmas

theorem plays_stepSongMap (m : List (String × SongAgg)) (r : PlayRecord)
    (id : String) :
    mapValueAt SongAgg.plays 0 (stepSongMap m r) id =
      mapValueAt SongAgg.plays 0 m id +
        (if r.songId = id ∧ isQualifiedPlay r then 1 else 0) := by
  unfold stepSongMap
  cases h : lookupKey m r.songId with
  | some ex =>
    simp only [mapValueAt, lookupKey_setKey]
    by_cases hid : r.songId = id
    · subst hid
      simp [h, isQualifiedPlay]
    · simp [hid]
  | none =>
    simp only [mapValueAt, lookupKey_append_single]
    by_cases hid : r.songId = id
    · subst hid
      simp [h, isQualifiedPlay]
    · cases hm : lookupKey m id <;> simp [hm, hid]

theorem minutes_stepSongMap (m : List (String × SongAgg)) (r : PlayRecord)
    (id : String) :
    mapValueAt SongAgg.minutes 0 (stepSongMap m r) id =
      mapValueAt SongAgg.minutes 0 m id +
        (if r.songId = id then minutesListened r else 0) := by
  unfold stepSongMap
  cases h : lookupKey m r.songId with
  | some ex =>
    simp only [mapValueAt, lookupKey_setKey]
    by_cases hid : r.songId = id
    · subst hid; simp [h]
    · simp [hid]
  | none =>
    simp only [mapValueAt, lookupKey_append_single]
    by_cases hid : r.songId = id
    · subst hid; simp [h]
    · cases hm : lookupKey m id <;> simp [hm, hid]

theorem plays_stepArtistMap (m : List (String × ArtistAgg)) (r : PlayRecord)
    (id : String) :
    mapValueAt ArtistAgg.plays 0 (stepArtistMap m r) id =
      mapValueAt ArtistAgg.plays 0 m id +
        (if r.artistId = id ∧ isQualifiedPlay r then 1 else 0) := by
  unfold stepArtistMap
  cases h : lookupKey m r.artistId with
  | some ex =>
    simp only [mapValueAt, lookupKey_setKey]
    by_cases hid : r.artistId = id
    · subst hid
      simp [h, isQualifiedPlay]
    · simp [hid]
  | none =>
    simp only [mapValueAt, lookupKey_append_single]
    by_cases hid : r.artistId = id
    · subst hid
      simp [h, isQualifiedPlay]
    · cases hm : lookupKey m id <;> simp [hm, hid]

theorem minutes_stepArtistMap (m : List (String × ArtistAgg)) (r : PlayRecord)
    (id : String) :
    mapValueAt ArtistAgg.minutes 0 (stepArtistMap m r) id =
      mapValueAt ArtistAgg.minutes 0 m id +
        (if r.artistId = id then minutesListened r else 0) := by
  unfold stepArtistMap
  cases h : lookupKey m r.artistId with
  | some ex =>
    simp only [mapValueAt, lookupKey_setKey]
    by_cases hid : r.artistId = id
    · subst hid; simp [h]
    · simp [hid]
  | none =>
    simp only [mapValueAt, lookupKey_append_single]
    by_cases hid : r.artistId = id
    · subst hid; simp [h]
    · cases hm : lookupKey m id <;> simp [hm, hid]

theorem plays_stepSkipMap (m : List (String × SkipAgg)) (r : PlayRecord)
    (id : String) :
    mapValueAt SkipAgg.plays 0 (stepSkipMap m r) id =
      mapValueAt SkipAgg.plays 0 m id +
        (if r.songId = id ∧ isQualifiedPlay r then 1 else 0) := by
  unfold stepSkipMap
  cases h : lookupKey m r.songId with
  | some ex =>
    simp only [mapValueAt, lookupKey_setKey]
    by_cases hid : r.songId = id
    · subst hid
      simp [h, isQualifiedPlay]
    · simp [hid]
  | none =>
    simp only [mapValueAt, lookupKey_append_single]
    by_cases hid : r.songId = id
    · subst hid
      simp [h, isQualifiedPlay]
    · cases hm : lookupKey m id <;> simp [hm, hid]

end SongMapLemmas

section ThresholdTheorems

/-- C4: in `computeStats`, a record counts toward `totalSongs` and every
play-count tally — the per-song plays, the per-artist plays and the
skip-stat plays — exactly when `durationListened ≥ 30`, while every
record, qualified or not, contributes `durationListened / 60` to the
minute totals (the per-song minutes, the per-artist minutes and the
global pre-rounding total). -/
theorem computeStats_qualified_play_threshold (recs : List PlayRecord)
    (id : String) :
    totalSongs recs =
      (recs.filter fun r => decide (30 ≤ r.durationListened)).length ∧
    mapValueAt SongAgg.plays 0 (songPlayMap recs) id =
      (recs.filter fun r =>
        decide (r.songId = id ∧ 30 ≤ r.durationListened)).length ∧
    mapValueAt SongAgg.minutes 0 (songPlayMap recs) id =
      ((recs.filter fun r => decide (r.songId = id)).map minutesListened).sum ∧
    mapValueAt ArtistAgg.plays 0 (artistPlayMap recs) id =
      (recs.filter fun r =>
        decide (r.artistId = id ∧ 30 ≤ r.durationListened)).length ∧
    mapValueAt ArtistAgg.minutes 0 (artistPlayMap recs) id =
      ((recs.filter fun r => decide (r.artistId = id)).map minutesListened).sum ∧
    mapValueAt SkipAgg.plays 0 (skipMap recs) id =
      (recs.filter fun r =>
        decide (r.songId = id ∧ 30 ≤ r.durationListened)).length ∧
    totalMinutesExact recs = (recs.map minutesListened).sum := by
  have hlen : ∀ (p : PlayRecord → Bool) (l : List PlayRecord),
      (l.filter p).length = (l.map fun r => if p r then (1 : ℕ) else 0).sum := by
    intro p l
    have := length_filter_eq_sum_ite p (fun _ => (1 : ℕ)) l
    simpa using this
  refine ⟨rfl, ?_, ?_, ?_, ?_, ?_, ?_⟩
  · rw [hlen]
    have := foldl_measure_add stepSongMap (mapValueAt SongAgg.plays 0 · id)
      (fun r => if r.songId = id ∧ isQualifiedPlay r then 1 else 0)
      (fun m r => plays_stepSongMap m r id) recs []
    simp only [mapValueAt, lookupKey, Option.map_none', Option.getD_none,
      zero_add] at this
    simp only [songPlayMap, artistPlayMap, skipMap, mapValueAt]
    rw [this]
    congr 1
    congr 1
    funext r
    by_cases h1 : r.songId = id <;> by_cases h2 : 30 ≤ r.durationListened <;>
      simp [isQualifiedPlay, h1, h2]
  · rw [length_filter_eq_sum_ite]
    have := foldl_measure_add stepSongMap (mapValueAt SongAgg.minutes 0 · id)
      (fun r => if r.songId = id then minutesListened r else 0)
      (fun m r => minutes_stepSongMap m r id) recs []
    simp only [mapValueAt, lookupKey, Option.map_none', Option.getD_none,
      zero_add] at this
    simp only [songPlayMap, artistPlayMap, skipMap, mapValueAt]
    rw [this]
    congr 1
    congr 1
    funext r
    by_cases h1 : r.songId = id <;> simp [h1]
  · rw [hlen]
    have := foldl_measure_add stepArtistMap (mapValueAt ArtistAgg.plays 0 · id)
      (fun r => if r.artistId = id ∧ isQualifiedPlay r then 1 else 0)
      (fun m r => plays_stepArtistMap m r id) recs []
    simp only [mapValueAt, lookupKey, Option.map_none', Option.getD_none,
      zero_add] at this
    simp only [songPlayMap, artistPlayMap, skipMap, mapValueAt]
    rw [this]
    congr 1
    congr 1
    funext r
    by_cases h1 : r.artistId = id <;> by_cases h2 : 30 ≤ r.durationListened <;>
      simp [isQualifiedPlay, h1, h2]
  · rw [length_filter_eq_sum_ite]
    have := foldl_measure_add stepArtistMap (mapValueAt ArtistAgg.minutes 0 · id)
      (fun r => if r.artistId = id then minutesListened r else 0)
      (fun m r => minutes_stepArtistMap m r id) recs []
    simp only [mapValueAt, lookupKey, Option.map_none', Option.getD_none,
      zero_add] at this
    simp only [songPlayMap, artistPlayMap, skipMap, mapValueAt]
    rw [this]
    congr 1
    congr 1
    funext r
    by_cases h1 : r.artistId = id <;> simp [h1]
  · rw [hlen]
    have := foldl_measure_add stepSkipMap (mapValueAt SkipAgg.plays 0 · id)
      (fun r => if r.songId = id ∧ isQualifiedPlay r then 1 else 0)
      (fun m r => plays_stepSkipMap m r id) recs []
    simp only [mapValueAt, lookupKey, Option.map_none', Option.getD_none,
      zero_add] at this
    simp only [songPlayMap, artistPlayMap, skipMap, mapValueAt]
    rw [this]
    congr 1
    congr 1
    funext r
    by_cases h1 : r.songId = id <;> by_cases h2 : 30 ≤ r.durationListened <;>
      simp [isQualifiedPlay, h1, h2]
  · have := foldl_measure_add (fun (sum : ℚ) r => sum + minutesListened r)
      (fun q => q) minutesListened (fun _ _ => rfl) recs 0
    simpa [totalMinutesExact] using this

end ThresholdTheorems

/-- Hour bucket of a timestamp.  The source uses
`new Date(record.timestamp).getHours()`, the hour in the host's local
time zone; the embedding fixes the zone to UTC, which only relabels the
24 buckets and is irrelevant to every claim. -/
def hourOfTimestamp (ts : Nat) : Nat :=
  ts / 3600000 % 24

/-- One step of the per-key play counters of `aggregateDailyStats`:
`map.set(key, (map.get(key) || 0) + 1)`. -/
def stepCountMap (m : List (String × Nat)) (key : String) : List (String × Nat) :=
  setKey m key ((lookupKey m key).getD 0 + 1)

/-- Round to one decimal place, `Math.round(x * 10) / 10`. -/
def roundTenth (q : ℚ) : ℚ :=
  (jsRound (q * 10) : ℚ) / 10

/-- The `DailyAggregate` of `types.ts`.  Top lists hold
`(id, title-or-name, plays)` triples; `genreBreakdown` is the always
empty map of the source. -/
structure DailyAggregate where
  date : String
  totalMinutes : ℚ
  songsPlayed : Nat
  uniqueSongs : Nat
  uniqueArtists : Nat
  topSongs : List (String × String × Nat)
  topArtists : List (String × String × Nat)
  genreBreakdown : List (String × ℚ)
  hourlyBreakdown : List Nat
  skipCount : Nat
deriving DecidableEq, Repr

/-- Top-10 of a count map as built in `aggregateDailyStats`: sort the
entries by count descending (`(a, b) => b[1] - a[1]`, a stable sort),
take the first 10 and resolve each id to its first matching record. -/
def topOfCountMap (records : List PlayRecord) (idOf labelOf : PlayRecord → String)
    (m : List (String × Nat)) : List (String × String × Nat) :=
  ((m.insertionSort fun a b => b.2 ≤ a.2).take 10).map fun p =>
    (p.1, ((records.find? fun r => idOf r == p.1).map labelOf).getD "", p.2)

/-- The 24-slot hourly histogram of `aggregateDailyStats`. -/
def hourlyHistogram (records : List PlayRecord) : List Nat :=
  records.foldl
    (fun acc r =>
      acc.set (hourOfTimestamp r.timestamp)
        (acc.getD (hourOfTimestamp r.timestamp) 0 + 1))
    (List.replicate 24 0)

/-- The `DailyAggregate` computed by `aggregateDailyStats` from the
records of one day (the branch taken when the day has records). -/
def dailyAggregateOf (today : String) (records : List PlayRecord) :
    DailyAggregate where
  date := today
  totalMinutes := roundTenth (totalMinutesExact records)
  songsPlayed := records.length
  uniqueSongs := ((records.map (·.songId)).eraseDups).length
  uniqueArtists := ((records.map (·.artistId)).eraseDups).length
  topSongs := topOfCountMap records (·.songId) (·.songTitle)
    (records.foldl (fun m r => stepCountMap m r.songId) [])
  topArtists := topOfCountMap records (·.artistId) (·.artistName)
    (records.foldl (fun m r => stepCountMap m r.artistId) [])
  genreBreakdown := []
  hourlyBreakdown := hourlyHistogram records
  skipCount := (records.filter (·.skipped)).length

/-- State transition of one `aggregateDailyStats` run on the stored
aggregate for `today`: with no records for the day the source returns
before writing (`if (records.length === 0) return`), otherwise it
recomputes the aggregate wholesale and stores it. -/
def aggregateDailyStats (today : String) (records : List PlayRecord)
    (stored : Option DailyAggregate) : Option DailyAggregate :=
  if records.isEmpty then stored else some (dailyAggregateOf today records)

section DailyAggregateTheorems

/-- C9: daily aggregation is idempotent and empty-safe — running the
pass twice over the same record set leaves exactly the state the first
run produced (the recomputed aggregate is identical both times), and a
run with zero records for the day writes nothing, never overwriting an
existing stored aggregate with an empty one. -/
theorem aggregateDailyStats_idempotent_empty_safe (today : String)
    (records : List PlayRecord) (stored : Option DailyAggregate) :
    aggregateDailyStats today records
        (aggregateDailyStats today records stored) =
      aggregateDailyStats today records stored ∧
    aggregateDailyStats today [] stored = stored := by
  constructor
  · cases records <;> simp [aggregateDailyStats]
  · rfl

end DailyAggregateTheorems

/-- One iteration of the `mergeAggregate` loop inside `mergeExports`,
generic in the aggregate type through its `totalMinutes` projection:
a key absent from the accumulated result is assigned; for a shared key
the source keeps whichever side reports the larger `totalMinutes` only
when both values are truthy (nonzero), preferring the accumulated
(local) value on ties and whenever either side reports 0. -/
def mergeAggStep {β : Type} (tm : β → ℚ) (result : List (String × β))
    (kv : String × β) : List (String × β) :=
  match lookupKey result kv.1 with
  | none => setKey result kv.1 kv.2
  | some ex =>
    if tm kv.2 ≠ 0 ∧ tm ex ≠ 0 then
      if tm ex < tm kv.2 then setKey result kv.1 kv.2 else result
    else result

/-- The `mergeAggregate` helper of `mergeExports`: start from a copy of
the left (local) map and fold the right (remote) entries into it. -/
def mergeAggregate {β : Type} (tm : β → ℚ) (left right : List (String × β)) :
    List (String × β) :=
  right.foldl (mergeAggStep tm) left

theorem lookupKey_eq_none_of_not_mem {β : Type} (m : List (String × β))
    (k : String) (h : k ∉ m.map Prod.fst) : lookupKey m k = none := by
  induction m with
  | nil => rfl
  | cons p rest ih =>
    simp only [List.map_cons, List.mem_cons] at h
    push_neg at h
    have : ¬ p.1 = k := fun hc => h.1 hc.symm
    cases p
    simp only [lookupKey, if_neg this]
    exact ih h.2

theorem lookup_mergeAggStep {β : Type} (tm : β → ℚ) (l : List (String × β))
    (kv : String × β) (k : String) :
    lookupKey (mergeAggStep tm l kv) k =
      if kv.1 = k then
        match lookupKey l k with
        | none => some kv.2
        | some ex =>
          some (if tm kv.2 ≠ 0 ∧ tm ex ≠ 0 ∧ tm ex < tm kv.2 then kv.2 else ex)
      else lookupKey l k := by
  unfold mergeAggStep
  by_cases hk : kv.1 = k
  · subst hk
    cases h : lookupKey l kv.1 with
    | none => simp [lookupKey_setKey, h]
    | some ex =>
      by_cases h1 : tm kv.2 ≠ 0 ∧ tm ex ≠ 0
      · by_cases h2 : tm ex < tm kv.2
        · simp [h, h1, h2, lookupKey_setKey, h1.1, h1.2]
        · simp [h, h1, h2]
      · push_neg at h1
        by_cases hz : tm kv.2 = 0
        · simp [h, hz]
        · simp [h, hz, h1 hz]
  · cases h : lookupKey l kv.1 with
    | none => simp [lookupKey_setKey, hk, h]
    | some ex =>
      by_cases h1 : tm kv.2 ≠ 0 ∧ tm ex ≠ 0
      · by_cases h2 : tm ex < tm kv.2 <;>
          simp [h, h1, h2, lookupKey_setKey, hk]
      · simp only [h]
        rw [if_neg h1, if_neg hk]

theorem lookup_mergeAggregate_not_mem {β : Type} (tm : β → ℚ)
    (right : List (String × β)) (l : List (String × β)) (k : String)
    (h : k ∉ right.map Prod.fst) :
    lookupKey (mergeAggregate tm l right) k = lookupKey l k := by
  induction right generalizing l with
  | nil => rfl
  | cons kv rest ih =>
    simp only [List.map_cons, List.mem_cons] at h
    push_neg at h
    show lookupKey (mergeAggregate tm (mergeAggStep tm l kv) rest) k = _
    rw [ih _ h.2, lookup_mergeAggStep, if_neg (fun hc => h.1 hc.symm)]

/-- Per-key value of the merged aggregate map, assuming the remote map
has no duplicate keys (a JS object cannot). -/
theorem lookup_mergeAggregate {β : Type} (tm : β → ℚ)
    (right : List (String × β)) (left : List (String × β)) (k : String)
    (hnr : (right.map Prod.fst).Nodup) :
    lookupKey (mergeAggregate tm left right) k =
      match lookupKey left k, lookupKey right k with
      | none, none => none
      | some a, none => some a
      | none, some b => some b
      | some a, some b =>
        some (if tm b ≠ 0 ∧ tm a ≠ 0 ∧ tm a < tm b then b else a) := by
  induction right generalizing left with
  | nil =>
    cases h : lookupKey left k <;> simp [mergeAggregate, lookupKey, h]
  | cons kv rest ih =>
    simp only [List.map_cons, List.nodup_cons] at hnr
    obtain ⟨hk1, hrest⟩ := hnr
    show lookupKey (mergeAggregate tm (mergeAggStep tm left kv) rest) k = _
    by_cases hk : kv.1 = k
    · subst hk
      rw [lookup_mergeAggregate_not_mem tm rest _ _ hk1,
        lookup_mergeAggStep]
      simp only [if_pos rfl]
      obtain ⟨k0, v0⟩ := kv
      cases h : lookupKey left k0 <;> simp [lookupKey, h]
    · rw [ih _ hrest, lookup_mergeAggStep, if_neg hk]
      obtain ⟨k0, v0⟩ := kv
      have : ¬ k0 = k := hk
      simp only [lookupKey, if_neg this]

section MergeAggregateTheorems

/-- A stored daily aggregate reporting 0 total minutes (as produced for
a day whose listened time rounds to zero). -/
def dayAggZeroMinutes : DailyAggregate where
  date := "2024-01-01"
  totalMinutes := 0
  songsPlayed := 1
  uniqueSongs := 1
  uniqueArtists := 1
  topSongs := [("s1", "t1", 1)]
  topArtists := [("a1", "n1", 1)]
  genreBreakdown := []
  hourlyBreakdown := List.replicate 24 0
  skipCount := 0

/-- A daily aggregate for the same date reporting 5 total minutes. -/
def dayAggFiveMinutes : DailyAggregate where
  date := "2024-01-01"
  totalMinutes := 5
  songsPlayed := 3
  uniqueSongs := 2
  uniqueArtists := 1
  topSongs := [("s2", "t2", 3)]
  topArtists := [("a1", "n1", 3)]
  genreBreakdown := []
  hourlyBreakdown := List.replicate 24 0
  skipCount := 1

/-- C2 counterexample: for the key shared by a local aggregate with
`totalMinutes = 0` and a remote aggregate with `totalMinutes = 5`, the
merged map keeps the local zero-minute side, not the side with the
larger `totalMinutes` — the source only applies the keep-the-larger rule
when both sides report a truthy (nonzero) `totalMinutes`. -/
theorem mergeAggregate_zero_minutes_keeps_smaller :
    lookupKey
        (mergeAggregate DailyAggregate.totalMinutes
          [("2024-01-01", dayAggZeroMinutes)]
          [("2024-01-01", dayAggFiveMinutes)]) "2024-01-01" =
      some dayAggZeroMinutes ∧
    dayAggZeroMinutes.totalMinutes < dayAggFiveMinutes.totalMinutes := by
  constructor
  · rfl
  · decide

/-- C2 amended: per key, when both sides report a nonzero
`totalMinutes` the merged map keeps whichever side reports the larger
one, ties keeping the local (left) side; when either side reports 0 the
local side is kept; keys present in only one map are kept as-is.  The
remote map is assumed to have no duplicate keys, as a JS object. -/
theorem mergeAggregate_keeps_larger_when_both_nonzero {β : Type}
    (tm : β → ℚ) (left right : List (String × β)) (k : String)
    (hnr : (right.map Prod.fst).Nodup) :
    lookupKey (mergeAggregate tm left right) k =
      match lookupKey left k, lookupKey right k with
      | none, none => none
      | some a, none => some a
      | none, some b => some b
      | some a, some b =>
        some (if tm b ≠ 0 ∧ tm a ≠ 0 ∧ tm a < tm b then b else a) :=
  lookup_mergeAggregate tm right left k hnr

/-- Witness for C2 amended on concrete maps: a shared key with nonzero
minutes on both sides resolves to the larger side, and one-sided keys
survive unchanged. -/
theorem mergeAggregate_keeps_larger_when_both_nonzero_witness :
    lookupKey
        (mergeAggregate DailyAggregate.totalMinutes
          [("2024-01-01", dayAggZeroMinutes), ("2024-01-02", dayAggFiveMinutes)]
          [("2024-01-02", dayAggZeroMinutes), ("2024-01-03", dayAggFiveMinutes)])
        "2024-01-03" = some dayAggFiveMinutes := by
  have h := mergeAggregate_keeps_larger_when_both_nonzero
    DailyAggregate.totalMinutes
    [("2024-01-01", dayAggZeroMinutes), ("2024-01-02", dayAggFiveMinutes)]
    [("2024-01-02", dayAggZeroMinutes), ("2024-01-03", dayAggFiveMinutes)]
    "2024-01-03" (by decide)
    
  simpa using h

end MergeAggregateTheorems

/-- The `MonthlyAggregate` of `types.ts` (entries: `(id, title, artist,
plays)` for songs, `(id, name, minutes)` for artists). -/
structure MonthlyAggregate where
  yearMonth : String
  totalMinutes : ℚ
  topSongs : List (String × String × String × Nat)
  topArtists : List (String × String × ℚ)
  genreBreakdown : List (String × ℚ)
  daysActive : Nat
deriving DecidableEq, Repr

/-- The four payload fields of a parsed export, the `data` consumed by
`mergeExports`. -/
structure ExportData where
  playRecords : List PlayRecord
  dailyAggregates : List (String × DailyAggregate)
  monthlyAggregates : List (String × MonthlyAggregate)
  streak : Option Streak
deriving DecidableEq

/-- The full transmissible snapshot produced by `mergeExports` (and by
`exportData`): the payload plus the `version`/`exportDate` wrapper. -/
structure ExportBundle where
  version : Nat
  exportDate : Nat
  playRecords : List PlayRecord
  dailyAggregates : List (String × DailyAggregate)
  monthlyAggregates : List (String × MonthlyAggregate)
  streak : Option Streak
deriving DecidableEq

/-- The deduplication key of `mergeExports`: the template string
`songId|artistId|timestamp|durationListened|totalDuration`.  Note this
is a string join, not the raw tuple: field values containing the `|`
separator can make distinct tuples collide. -/
def recordKey (r : PlayRecord) : String :=
  r.songId ++ "|" ++ r.artistId ++ "|" ++ toString r.timestamp ++ "|" ++
    toString r.durationListened ++ "|" ++ toString r.totalDuration

/-- First-occurrence-wins deduplication by `recordKey`, the `recordMap`
of `mergeExports` (`if (!recordMap.has(key)) recordMap.set(key, record)`
followed by `Array.from(recordMap.values())`, which preserves insertion
order). -/
def dedupAux (seen : List String) : List PlayRecord → List PlayRecord
  | [] => []
  | r :: rest =>
    if recordKey r ∈ seen then dedupAux seen rest
    else r :: dedupAux (recordKey r :: seen) rest

/-- Deduplicated record list of `mergeExports`. -/
def dedupByKey (l : List PlayRecord) : List PlayRecord :=
  dedupAux [] l

/-- Streak resolution of `mergeExports`: keep whichever side has the
later `lastListenDate`, the remote side on ties. -/
def mergeStreak (a b : Option Streak) : Option Streak :=
  match a with
  | none => b
  | some sa =>
    match b with
    | none => some sa
    | some sb =>
      if sb.lastListenDate < sa.lastListenDate then some sa else some sb

/-- The `mergeExports` function: concatenate local-then-remote records
and deduplicate by key, merge both aggregate maps with `mergeAggregate`,
resolve the streak, and wrap with `version: 1` and a fresh `exportDate`
(`Date.now()`, passed here as `now`). -/
def mergeExports (localData remoteData : ExportData) (now : Nat) :
    ExportBundle where
  version := 1
  exportDate := now
  playRecords := dedupByKey (localData.playRecords ++ remoteData.playRecords)
  dailyAggregates := mergeAggregate DailyAggregate.totalMinutes
    localData.dailyAggregates remoteData.dailyAggregates
  monthlyAggregates := mergeAggregate MonthlyAggregate.totalMinutes
    localData.monthlyAggregates remoteData.monthlyAggregates
  streak := mergeStreak localData.streak remoteData.streak

section DedupLemmas

theorem mem_keys_dedupAux (l : List PlayRecord) (seen : List String)
    (k : String) :
    k ∈ (dedupAux seen l).map recordKey ↔
      k ∈ l.map recordKey ∧ k ∉ seen := by
  induction l generalizing seen with
  | nil => simp [dedupAux]
  | cons r rest ih =>
    by_cases h : recordKey r ∈ seen
    · simp only [dedupAux, if_pos h, ih, List.map_cons, List.mem_cons]
      constructor
      · rintro ⟨hk, hns⟩
        exact ⟨Or.inr hk, hns⟩
      · rintro ⟨hk | hk, hns⟩
        · exact absurd (hk ▸ h) hns
        · exact ⟨hk, hns⟩
    · simp only [dedupAux, if_neg h, List.map_cons, List.mem_cons, ih,
        List.mem_cons]
      constructor
      · rintro (hk | ⟨hk, hns⟩)
        · exact ⟨Or.inl hk, hk ▸ h⟩
        · exact ⟨Or.inr hk, fun hc => hns (Or.inr hc)⟩
      · rintro ⟨hk | hk, hns⟩
        · exact Or.inl hk
        · by_cases he : k = recordKey r
          · exact Or.inl he
          · exact Or.inr ⟨hk, fun hc => hc.elim (fun h1 => he h1) hns⟩

theorem nodup_keys_dedupAux (l : List PlayRecord) (seen : List String) :
    ((dedupAux seen l).map recordKey).Nodup := by
  induction l generalizing seen with
  | nil => simp [dedupAux]
  | cons r rest ih =>
    by_cases h : recordKey r ∈ seen
    · simpa [dedupAux, if_pos h] using ih seen
    · simp only [dedupAux, if_neg h, List.map_cons, List.nodup_cons]
      refine ⟨?_, ih _⟩
      intro hc
      exact ((mem_keys_dedupAux rest _ _).mp hc).2 (List.mem_cons_self _ _)

/-- The seen-set after processing a prefix (the keys the `recordMap`
holds when the loop reaches the suffix). -/
def seenAfter (seen : List String) : List PlayRecord → List String
  | [] => seen
  | r :: rest =>
    if recordKey r ∈ seen then seenAfter seen rest
    else seenAfter (recordKey r :: seen) rest

theorem mem_seenAfter (l : List PlayRecord) (seen : List String) (k : String) :
    k ∈ seenAfter seen l ↔ k ∈ seen ∨ k ∈ l.map recordKey := by
  induction l generalizing seen with
  | nil => simp [seenAfter]
  | cons r rest ih =>
    by_cases h : recordKey r ∈ seen
    · simp only [seenAfter, if_pos h, ih, List.map_cons, List.mem_cons]
      constructor
      · rintro (hk | hk)
        · exact Or.inl hk
        · exact Or.inr (Or.inr hk)
      · rintro (hk | hk | hk)
        · exact Or.inl hk
        · exact Or.inl (hk ▸ h)
        · exact Or.inr hk
    · simp only [seenAfter, if_neg h, ih, List.map_cons, List.mem_cons]
      tauto

theorem dedupAux_append (xs ys : List PlayRecord) (seen : List String) :
    dedupAux seen (xs ++ ys) =
      dedupAux seen xs ++ dedupAux (seenAfter seen xs) ys := by
  induction xs generalizing seen with
  | nil => simp [dedupAux, seenAfter]
  | cons r rest ih =>
    by_cases h : recordKey r ∈ seen <;>
      simp [dedupAux, seenAfter, h, ih]

theorem dedupAux_seen_congr (l : List PlayRecord) :
    ∀ seen seen' : List String,
      (∀ k ∈ l.map recordKey, (k ∈ seen ↔ k ∈ seen')) →
      dedupAux seen l = dedupAux seen' l := by
  induction l with
  | nil => intro seen seen' _; rfl
  | cons r rest ih =>
    intro seen seen' hcong
    have hr : recordKey r ∈ seen ↔ recordKey r ∈ seen' :=
      hcong _ (by simp)
    by_cases h : recordKey r ∈ seen
    · rw [dedupAux, if_pos h, dedupAux, if_pos (hr.mp h)]
      exact ih _ _ fun k hk => hcong k (by simp [hk])
    · rw [dedupAux, if_neg h, dedupAux, if_neg (fun hc => h (hr.mpr hc))]
      congr 1
      refine ih _ _ fun k hk => ?_
      simp only [List.mem_cons]
      rw [hcong k (by simp [hk])]

end DedupLemmas

section MergeSelfLemmas

theorem lookup_self_of_nodup {β : Type} (m : List (String × β))
    (hn : (m.map Prod.fst).Nodup) :
    ∀ kv ∈ m, lookupKey m kv.1 = some kv.2 := by
  induction m with
  | nil => intro kv h; cases h
  | cons p rest ih =>
    simp only [List.map_cons, List.nodup_cons] at hn
    intro kv hkv
    rcases List.mem_cons.mp hkv with h | h
    · subst h
      cases kv
      simp [lookupKey]
    · cases p with
      | mk k0 v0 =>
        have hmem : kv.1 ∈ rest.map Prod.fst :=
          List.mem_map_of_mem Prod.fst h
        have : ¬ k0 = kv.1 := by
          intro hc
          rw [hc] at hn
          exact hn.1 hmem
        simp only [lookupKey, if_neg this]
        exact ih hn.2 kv h

theorem mergeAggregate_of_lookup_self {β : Type} (tm : β → ℚ)
    (r : List (String × β)) (acc : List (String × β))
    (h : ∀ kv ∈ r, lookupKey acc kv.1 = some kv.2) :
    mergeAggregate tm acc r = acc := by
  induction r with
  | nil => rfl
  | cons kv rest ih =>
    have hstep : mergeAggStep tm acc kv = acc := by
      unfold mergeAggStep
      rw [h kv (List.mem_cons_self _ _)]
      change (if tm kv.2 ≠ 0 ∧ tm kv.2 ≠ 0 then
        if tm kv.2 < tm kv.2 then setKey acc kv.1 kv.2 else acc else acc) = acc
      by_cases h1 : tm kv.2 ≠ 0 ∧ tm kv.2 ≠ 0
      · rw [if_pos h1, if_neg (lt_irrefl _)]
      · rw [if_neg h1]
    show mergeAggregate tm (mergeAggStep tm acc kv) rest = acc
    rw [hstep]
    exact ih fun kv hkv => h kv (List.mem_cons_of_mem _ hkv)

theorem mergeAggregate_self {β : Type} (tm : β → ℚ)
    (m : List (String × β)) (hn : (m.map Prod.fst).Nodup) :
    mergeAggregate tm m m = m :=
  mergeAggregate_of_lookup_self tm m m (lookup_self_of_nodup m hn)

theorem mergeStreak_self (s : Option Streak) : mergeStreak s s = s := by
  cases s with
  | none => rfl
  | some sa => simp [mergeStreak]

end MergeSelfLemmas

section MergeExportsTheorems

/-- A local record whose artistId contains the key separator. -/
def collideLocalRecord : PlayRecord :=
  { songId := "a", songTitle := "tL", artistId := "b|1", artistName := "nL"
    timestamp := 1, durationListened := 1, totalDuration := 1
    skipped := false, completed := false }

/-- A remote record with a different identity tuple but the same joined
key string. -/
def collideRemoteRecord : PlayRecord :=
  { songId := "a|b", songTitle := "tR", artistId := "1", artistName := "nR"
    timestamp := 1, durationListened := 1, totalDuration := 1
    skipped := false, completed := false }

/-- C6 counterexample: two bundles that differ only in disjoint record
sets — the tuples (songId, artistId, timestamp, durationListened,
totalDuration) of the two records are distinct — whose records collide
on the joined key string, so the merge drops the remote record entirely:
merge(A,B) does not contain each record of the union exactly once, and
merge(A,B) and merge(B,A) do not even have equal record identity sets. -/
theorem mergeExports_key_collision_drops_record :
    (mergeExports ⟨[collideLocalRecord], [], [], none⟩
        ⟨[collideRemoteRecord], [], [], none⟩ 0).playRecords
      = [collideLocalRecord] ∧
    (mergeExports ⟨[collideRemoteRecord], [], [], none⟩
        ⟨[collideLocalRecord], [], [], none⟩ 0).playRecords
      = [collideRemoteRecord] ∧
    collideLocalRecord ≠ collideRemoteRecord := by
  refine ⟨?_, ?_, by decide⟩ <;> decide

/-- C6 amended: for bundles that agree on aggregates and streak (their
maps without duplicate keys, as JS objects) and whose record sets are
disjoint by the serialized identity key
`songId|artistId|timestamp|durationListened|totalDuration` (for ids free
of the `|` separator this is exactly tuple identity), merge(A,B) and
merge(B,A) agree up to record order — equal aggregates and streak, and
permutation-equal record lists — and the merged record list contains
each input record's key exactly once (its key list has no duplicates and
covers both sides). -/
theorem mergeExports_comm_of_disjoint (A B : ExportData) (now : Nat)
    (hd : A.dailyAggregates = B.dailyAggregates)
    (hm : A.monthlyAggregates = B.monthlyAggregates)
    (hs : A.streak = B.streak)
    (hdk : (A.dailyAggregates.map Prod.fst).Nodup)
    (hmk : (A.monthlyAggregates.map Prod.fst).Nodup)
    (hdisj : ∀ k ∈ A.playRecords.map recordKey,
      k ∉ B.playRecords.map recordKey) :
    List.Perm (mergeExports A B now).playRecords
        (mergeExports B A now).playRecords ∧
    ((mergeExports A B now).playRecords.map recordKey).Nodup ∧
    (∀ r ∈ A.playRecords ++ B.playRecords,
      recordKey r ∈ (mergeExports A B now).playRecords.map recordKey) ∧
    (mergeExports A B now).dailyAggregates =
      (mergeExports B A now).dailyAggregates ∧
    (mergeExports A B now).monthlyAggregates =
      (mergeExports B A now).monthlyAggregates ∧
    (mergeExports A B now).streak = (mergeExports B A now).streak := by
  have hsplitAB : dedupByKey (A.playRecords ++ B.playRecords) =
      dedupByKey A.playRecords ++ dedupByKey B.playRecords := by
    unfold dedupByKey
    rw [dedupAux_append]
    congr 1
    refine dedupAux_seen_congr _ _ _ fun k hk => ?_
    rw [mem_seenAfter]
    simp only [List.not_mem_nil, false_or, iff_false]
    intro hc
    exact hdisj k hc hk
  have hsplitBA : dedupByKey (B.playRecords ++ A.playRecords) =
      dedupByKey B.playRecords ++ dedupByKey A.playRecords := by
    unfold dedupByKey
    rw [dedupAux_append]
    congr 1
    refine dedupAux_seen_congr _ _ _ fun k hk => ?_
    rw [mem_seenAfter]
    simp only [List.not_mem_nil, false_or, iff_false]
    exact hdisj k hk
  refine ⟨?_, ?_, ?_, ?_, ?_, ?_⟩
  · show List.Perm (dedupByKey (A.playRecords ++ B.playRecords))
      (dedupByKey (B.playRecords ++ A.playRecords))
    rw [hsplitAB, hsplitBA]
    exact List.perm_append_comm
  · exact nodup_keys_dedupAux _ []
  · intro r hr
    rw [show (mergeExports A B now).playRecords =
      dedupAux [] (A.playRecords ++ B.playRecords) from rfl]
    rw [mem_keys_dedupAux]
    exact ⟨List.mem_map_of_mem recordKey hr, List.not_mem_nil _⟩
  · show mergeAggregate DailyAggregate.totalMinutes A.dailyAggregates
        B.dailyAggregates =
      mergeAggregate DailyAggregate.totalMinutes B.dailyAggregates
        A.dailyAggregates
    rw [hd, mergeAggregate_self _ _ (hd ▸ hdk)]
  · show mergeAggregate MonthlyAggregate.totalMinutes A.monthlyAggregates
        B.monthlyAggregates =
      mergeAggregate MonthlyAggregate.totalMinutes B.monthlyAggregates
        A.monthlyAggregates
    rw [hm, mergeAggregate_self _ _ (hm ▸ hmk)]
  · show mergeStreak A.streak B.streak = mergeStreak B.streak A.streak
    rw [hs, mergeStreak_self]

/-- Witness for C6 amended: two one-record bundles with distinct keys
and empty shared aggregates. -/
theorem mergeExports_comm_of_disjoint_witness :
    List.Perm
        (mergeExports ⟨[queryProbeRecord], [], [], none⟩
          ⟨[collideLocalRecord], [], [], none⟩ 7).playRecords
        (mergeExports ⟨[collideLocalRecord], [], [], none⟩
          ⟨[queryProbeRecord], [], [], none⟩ 7).playRecords ∧
    ((mergeExports ⟨[queryProbeRecord], [], [], none⟩
        ⟨[collideLocalRecord], [], [], none⟩ 7).playRecords.map
      recordKey).Nodup := by
  have h := mergeExports_comm_of_disjoint
    ⟨[queryProbeRecord], [], [], none⟩
    ⟨[collideLocalRecord], [], [], none⟩ 7 rfl rfl rfl (by decide) (by decide)
    (by decide)
  exact ⟨h.1, h.2.1⟩

end MergeExportsTheorems

/-- Outcome classification of one reconciliation pass, the four
terminal branches `syncDriveNow` can take once a remote file exists and
was downloaded. -/
inductive SyncAction where
  | upToDate
  | mergeChanges
  | pull
  | push
deriving DecidableEq, Repr

/-- Result of the decision stage of `syncDriveNow`: the action taken
and the value persisted into `cloudSyncLastHash` (for a merge the
persisted hash is the digest of the freshly serialized merged bundle,
outside this decision's inputs, hence `none`). -/
structure SyncStep where
  action : SyncAction
  newLastHash : Option String
deriving DecidableEq, Repr

/-- The decision procedure of `syncDriveNow` after the remote file has
been downloaded (the source from `const remoteHash = ...` on): equal
hashes are a no-op refreshing `lastHash`; otherwise the pass merges only
when both `localHash` and `remoteHash` differ from a nonempty recorded
`cloudSyncLastHash` (`lastSyncHash && hash !== lastSyncHash` on both
sides); otherwise it pulls exactly when the remote export's `exportDate`
is greater than the local export's, and pushes in every remaining case.
`localDate`/`remoteDate` are the `exportDate` values of the two parsed
exports. -/
def syncDriveNowDecision (localHash remoteHash lastSyncHash : String)
    (localDate remoteDate : ℚ) : SyncStep :=
  if remoteHash = localHash then
    ⟨SyncAction.upToDate, some localHash⟩
  else if (lastSyncHash ≠ "" ∧ localHash ≠ lastSyncHash) ∧
      (lastSyncHash ≠ "" ∧ remoteHash ≠ lastSyncHash) then
    ⟨SyncAction.mergeChanges, none⟩
  else if localDate < remoteDate then
    ⟨SyncAction.pull, some remoteHash⟩
  else
    ⟨SyncAction.push, some localHash⟩

section SyncDecisionTheorems

/-- C1 counterexample: a pass in which the hashes differ and only the
remote snapshot changed relative to the recorded last synchronized hash
(`localHash = lastHash = "a"`, `remoteHash = "b" ≠ lastHash`) pushes the
local export (persisting the local hash) instead of pulling, because the
source decides this branch by comparing `exportDate` fields — here the
local export is newer (5 > 3), as it always is for a freshly generated
local export. -/
theorem syncDriveNow_remote_only_change_pushes :
    syncDriveNowDecision "a" "b" "a" 5 3 =
      ⟨SyncAction.push, some "a"⟩ ∧
    syncDriveNowDecision "a" "b" "a" 5 3 ≠ ⟨SyncAction.pull, some "b"⟩ := by
  constructor <;> decide

/-- C1 amended: in a pass where local and remote hashes differ and only
the remote changed relative to the recorded `lastHash` (so the merge
branch is not taken), the pass pulls — importing the remote bundle and
persisting the remote hash as the new `lastHash` — exactly when the
remote export's `exportDate` is strictly greater than the local
export's; otherwise it pushes the local export and persists the local
hash. -/
theorem syncDriveNow_pull_iff_remote_newer (localHash remoteHash
    lastSyncHash : String) (localDate remoteDate : ℚ)
    (hne : remoteHash ≠ localHash) (hlocal : localHash = lastSyncHash) :
    (localDate < remoteDate →
      syncDriveNowDecision localHash remoteHash lastSyncHash localDate
        remoteDate = ⟨SyncAction.pull, some remoteHash⟩) ∧
    (remoteDate ≤ localDate →
      syncDriveNowDecision localHash remoteHash lastSyncHash localDate
        remoteDate = ⟨SyncAction.push, some localHash⟩) := by
  have hmerge : ¬ ((lastSyncHash ≠ "" ∧ localHash ≠ lastSyncHash) ∧
      (lastSyncHash ≠ "" ∧ remoteHash ≠ lastSyncHash)) := by
    rintro ⟨⟨_, hl⟩, _⟩
    exact hl hlocal
  constructor
  · intro hdate
    unfold syncDriveNowDecision
    rw [if_neg hne, if_neg hmerge, if_pos hdate]
  · intro hdate
    unfold syncDriveNowDecision
    rw [if_neg hne, if_neg hmerge, if_neg (not_lt.mpr hdate)]

/-- Witness for C1 amended: both directions at concrete hashes and
export dates. -/
theorem syncDriveNow_pull_iff_remote_newer_witness :
    syncDriveNowDecision "a" "b" "a" 3 5 =
      ⟨SyncAction.pull, some "b"⟩ ∧
    syncDriveNowDecision "a" "b" "a" 5 3 =
      ⟨SyncAction.push, some "a"⟩ := by
  constructor
  · exact (syncDriveNow_pull_iff_remote_newer "a" "b" "a" 3 5
      (by decide) rfl).1 (by norm_num)
  · exact (syncDriveNow_pull_iff_remote_newer "a" "b" "a" 5 3
      (by decide) rfl).2 (by norm_num)

end SyncDecisionTheorems

/-- The persisted sync credential fields of `StatsConfig` consumed by
`ensureAccessToken`; missing optional strings are the empty string
(falsy), a missing expiry is 0 (falsy). -/
structure TokenConfig where
  cloudSyncClientId : String := ""
  cloudSyncClientSecret : String := ""
  cloudSyncRefreshToken : String := ""
  cloudSyncAccessToken : String := ""
  cloudSyncAccessTokenExpiry : Int := 0
deriving DecidableEq, Repr

/-- The in-memory session token cache of `StatsBackend`. -/
structure SessionTokens where
  sessionAccessToken : Option String := none
  sessionAccessTokenExpiry : Int := 0
  sessionRefreshToken : Option String := none
deriving DecidableEq, Repr

/-- Outcome of the one refresh-token POST `ensureAccessToken` can make:
a non-success HTTP response with its (already truncated) body text, or a
success JSON carrying an optional `access_token` and `expires_in`. -/
inductive RefreshOutcome where
  | httpError (body : String)
  | ok (accessToken : Option String) (expiresIn : Int)
deriving DecidableEq, Repr

/-- CredentialManager: `ensureAccessToken`.  Returns the function's
result together with the number of token-endpoint calls performed.
The source returns the persisted access token when it and its expiry
are truthy and the expiry lies more than 60 s in the future, else the
session token under the same freshness rule, else throws the
missing-refresh-token error when the client id is falsy or neither a
persisted nor a session refresh token exists, and otherwise performs
exactly one refresh exchange, failing on a non-success response or a
response without an access token.  The session/config cache updates the
source performs on success carry no decision weight and are not
modelled. -/
def ensureAccessToken (config : TokenConfig) (session : SessionTokens)
    (now : Int) (refreshResponse : RefreshOutcome) :
    Except String String × Nat :=
  if config.cloudSyncAccessToken ≠ "" ∧
      config.cloudSyncAccessTokenExpiry ≠ 0 ∧
      config.cloudSyncAccessTokenExpiry > now + 60000 then
    (Except.ok config.cloudSyncAccessToken, 0)
  else if jsTruthyStr session.sessionAccessToken = true ∧
      session.sessionAccessTokenExpiry > now + 60000 then
    (Except.ok (session.sessionAccessToken.getD ""), 0)
  else if config.cloudSyncClientId = "" ∨
      (config.cloudSyncRefreshToken = "" ∧
        jsTruthyStr session.sessionRefreshToken = false) then
    (Except.error "Missing refresh token. Reconnect Google Drive.", 0)
  else
    match refreshResponse with
    | RefreshOutcome.httpError body =>
      (Except.error ("Failed to refresh Google token. " ++ body), 1)
    | RefreshOutcome.ok none _ => (Except.error "Missing access token.", 1)
    | RefreshOutcome.ok (some token) _ => (Except.ok token, 1)

section TokenTheorems

/-- C8 counterexample: with an empty client id but a present refresh
token (and no fresh access token), `ensureAccessToken` fails with the
missing-refresh-token error even though a refresh token exists — the
error is not equivalent to the absence of refresh tokens, because the
guard also fires on a missing client id. -/
theorem ensureAccessToken_missing_error_despite_refresh_token :
    ensureAccessToken
        { cloudSyncRefreshToken := "rt" } {} 1000000
        (RefreshOutcome.ok (some "fresh") 3600) =
      (Except.error "Missing refresh token. Reconnect Google Drive.", 0) ∧
    ({ cloudSyncRefreshToken := "rt" } : TokenConfig).cloudSyncRefreshToken
      ≠ "" := by
  exact ⟨rfl, by decide⟩

/-- C8 amended: `ensureAccessToken` returns the persisted access token
when it is truthy with truthy expiry more than 60 s in the future,
otherwise the session token under the same freshness rule, each with
zero network calls; otherwise it fails with the missing-refresh-token
error exactly when the client id is missing or neither a persisted nor
a session refresh token exists; and otherwise — in particular with an
expired access token and a valid refresh token — it performs exactly
one refresh call and, on a successful exchange, returns the new token
without interactive authorization. -/
theorem ensureAccessToken_freshness_and_refresh (config : TokenConfig)
    (session : SessionTokens) (now : Int)
    (refreshResponse : RefreshOutcome) :
    (config.cloudSyncAccessToken ≠ "" ∧
        config.cloudSyncAccessTokenExpiry ≠ 0 ∧
        config.cloudSyncAccessTokenExpiry > now + 60000 →
      ensureAccessToken config session now refreshResponse =
        (Except.ok config.cloudSyncAccessToken, 0)) ∧
    (¬ (config.cloudSyncAccessToken ≠ "" ∧
        config.cloudSyncAccessTokenExpiry ≠ 0 ∧
        config.cloudSyncAccessTokenExpiry > now + 60000) →
      jsTruthyStr session.sessionAccessToken = true ∧
        session.sessionAccessTokenExpiry > now + 60000 →
      ensureAccessToken config session now refreshResponse =
        (Except.ok (session.sessionAccessToken.getD ""), 0)) ∧
    (¬ (config.cloudSyncAccessToken ≠ "" ∧
        config.cloudSyncAccessTokenExpiry ≠ 0 ∧
        config.cloudSyncAccessTokenExpiry > now + 60000) →
      ¬ (jsTruthyStr session.sessionAccessToken = true ∧
        session.sessionAccessTokenExpiry > now + 60000) →
      (ensureAccessToken config session now refreshResponse =
          (Except.error "Missing refresh token. Reconnect Google Drive.", 0) ↔
        config.cloudSyncClientId = "" ∨
          (config.cloudSyncRefreshToken = "" ∧
            jsTruthyStr session.sessionRefreshToken = false))) ∧
    (¬ (config.cloudSyncAccessToken ≠ "" ∧
        config.cloudSyncAccessTokenExpiry ≠ 0 ∧
        config.cloudSyncAccessTokenExpiry > now + 60000) →
      ¬ (jsTruthyStr session.sessionAccessToken = true ∧
        session.sessionAccessTokenExpiry > now + 60000) →
      ¬ (config.cloudSyncClientId = "" ∨
        (config.cloudSyncRefreshToken = "" ∧
          jsTruthyStr session.sessionRefreshToken = false)) →
      ∀ token expiresIn,
        refreshResponse = RefreshOutcome.ok (some token) expiresIn →
        ensureAccessToken config session now refreshResponse =
          (Except.ok token, 1)) := by
  refine ⟨?_, ?_, ?_, ?_⟩
  · intro h1
    unfold ensureAccessToken
    rw [if_pos h1]
  · intro h1 h2
    unfold ensureAccessToken
    rw [if_neg h1, if_pos h2]
  · intro h1 h2
    unfold ensureAccessToken
    rw [if_neg h1, if_neg h2]
    by_cases h3 : config.cloudSyncClientId = "" ∨
        (config.cloudSyncRefreshToken = "" ∧
          jsTruthyStr session.sessionRefreshToken = false)
    · rw [if_pos h3]
      simpa using h3
    · rw [if_neg h3]
      simp only [iff_false_intro h3, iff_false]
      intro hc
      cases refreshResponse with
      | httpError body => simp at hc
      | ok tok e =>
        cases tok with
        | none => simp at hc
        | some t => simp at hc
  · intro h1 h2 h3 token expiresIn hresp
    subst hresp
    unfold ensureAccessToken
    rw [if_neg h1, if_neg h2, if_neg h3]

/-- Witness for C8 amended: a fresh persisted token is returned with no
network call, and an expired persisted token with a valid refresh token
triggers exactly one successful refresh call. -/
theorem ensureAccessToken_freshness_and_refresh_witness :
    ensureAccessToken
        { cloudSyncClientId := "cid", cloudSyncRefreshToken := "rt"
          cloudSyncAccessToken := "tok"
          cloudSyncAccessTokenExpiry := 2000000 } {} 1000000
        (RefreshOutcome.ok (some "fresh") 3600) =
      (Except.ok "tok", 0) ∧
    ensureAccessToken
        { cloudSyncClientId := "cid", cloudSyncRefreshToken := "rt"
          cloudSyncAccessToken := "tok"
          cloudSyncAccessTokenExpiry := 999999 } {} 1000000
        (RefreshOutcome.ok (some "fresh") 3600) =
      (Except.ok "fresh", 1) := by
  constructor
  · exact (ensureAccessToken_freshness_and_refresh
      { cloudSyncClientId := "cid", cloudSyncRefreshToken := "rt"
        cloudSyncAccessToken := "tok"
        cloudSyncAccessTokenExpiry := 2000000 } {} 1000000
      (RefreshOutcome.ok (some "fresh") 3600)).1
      ⟨by decide, by norm_num, by norm_num⟩
  · exact (ensureAccessToken_freshness_and_refresh
      { cloudSyncClientId := "cid", cloudSyncRefreshToken := "rt"
        cloudSyncAccessToken := "tok"
        cloudSyncAccessTokenExpiry := 999999 } {} 1000000
      (RefreshOutcome.ok (some "fresh") 3600)).2.2.2
      (fun h => absurd h.2.2 (by norm_num))
      (fun h => absurd h.2 (by norm_num))
      (fun h => by
        rcases h with h | h
        · exact absurd h (by decide)
        · exact absurd h.1 (by decide))
      "fresh" 3600 rfl

end TokenTheorems

/-- JSON values, the runtime shape of everything that crosses
`JSON.parse` / `JSON.stringify`.  The embedding works on this AST; the
string round trip `JSON.parse(JSON.stringify(v)) = v`, exact for the
values involved, is taken as the meaning of serialization. -/
inductive Json where
  | null
  | bool (b : Bool)
  | num (q : ℚ)
  | str (s : String)
  | arr (elements : List Json)
  | obj (fields : List (String × Json))

/-- JS truthiness of a JSON value (`null`, `false`, `0` and the empty
string are falsy; arrays and objects are always truthy). -/
def jsTruthyJson : Json → Bool
  | Json.null => false
  | Json.bool b => b
  | Json.num q => q != 0
  | Json.str s => s != ""
  | Json.arr _ => true
  | Json.obj _ => true

/-- Property read `value.name` on a parsed JSON value: a field of an
object, `undefined` (`none`) on every non-object (the throwing case of
reading a property of `null` is handled at each call site). -/
def getField : Json → String → Option Json
  | Json.obj fields, name => lookupKey fields name
  | _, _ => none

/-- `x || dflt` on an optional JSON value (JS property read followed by
a default). -/
def jsOrJson (v : Option Json) (dflt : Json) : Json :=
  match v with
  | some j => if jsTruthyJson j then j else dflt
  | none => dflt

def Json.isArr : Json → Bool
  | Json.arr _ => true
  | _ => false

def Json.isObj : Json → Bool
  | Json.obj _ => true
  | _ => false

/-- The in-memory document of `StatsDatabase` (`DatabaseSchema` of
`database.ts`), held at JSON granularity exactly as the source does —
`initialize` assigns `JSON.parse(fileData)` and `importData` stores the
parsed fields without validating their shape. -/
structure DatabaseSchema where
  playRecords : Json
  dailyAggregates : Json
  monthlyAggregates : Json
  streak : Json

/-- The empty canonical schema, the constructor/fallback document of
`StatsDatabase` and the `data` returned by `parseExport` for corrupt
input. -/
def emptyDatabaseSchema : DatabaseSchema :=
  ⟨Json.arr [], Json.obj [], Json.obj [], Json.null⟩

/-- `StatsDatabase.exportData`:
`JSON.stringify({version: 1, exportDate: Date.now(), ...this.data})`,
as the serialized JSON value. -/
def exportData (db : DatabaseSchema) (now : ℚ) : Json :=
  Json.obj [("version", Json.num 1), ("exportDate", Json.num now),
    ("playRecords", db.playRecords),
    ("dailyAggregates", db.dailyAggregates),
    ("monthlyAggregates", db.monthlyAggregates),
    ("streak", db.streak)]

/-- `StatsDatabase.importData`.  The input is the result of
`JSON.parse(jsonData)`: `none` when parsing throws — `importData` has no
catch, so the exception propagates (`none` result).  Reading the four
fields of a parsed `null` also throws.  Otherwise the document is
replaced wholesale by the four payload fields with truthiness defaults
(`imported.playRecords || []` and so on), dropping the
`version`/`exportDate` wrapper. -/
def importData (parsed : Option Json) : Option DatabaseSchema :=
  match parsed with
  | none => none
  | some Json.null => none
  | some j => some
      { playRecords := jsOrJson (getField j "playRecords") (Json.arr [])
        dailyAggregates := jsOrJson (getField j "dailyAggregates") (Json.obj [])
        monthlyAggregates :=
          jsOrJson (getField j "monthlyAggregates") (Json.obj [])
        streak := jsOrJson (getField j "streak") Json.null }

/-- Result of `parseExport`: the export timestamp used for the
pull-versus-push comparison, and the parsed payload handed to
`mergeExports`. -/
structure ParsedExport where
  exportDate : ℚ
  data : Json

/-- The JSON payload of the empty canonical schema, the fallback `data`
of `parseExport`. -/
def emptyExportDataJson : Json :=
  Json.obj [("playRecords", Json.arr []), ("dailyAggregates", Json.obj []),
    ("monthlyAggregates", Json.obj []), ("streak", Json.null)]

/-- The `parseExport` helper of the sync engine: a `JSON.parse` failure
(`none`), and equally a parsed `null` whose `exportDate` read throws,
is caught and replaced by `exportDate: 0` with the empty canonical
schema; otherwise the export date is `parsed.exportDate || 0` (0 when
the field is missing or not a number) and the payload is the parsed
value itself. -/
def parseExport : Option Json → ParsedExport
  | none => ⟨0, emptyExportDataJson⟩
  | some Json.null => ⟨0, emptyExportDataJson⟩
  | some j =>
    ⟨(match getField j "exportDate" with
      | some (Json.num q) => q
      | _ => 0), j⟩

/-- Serialization of one optional string property: `JSON.stringify`
omits `undefined` properties. -/
def jsonOfOptStr (name : String) (v : Option String) : List (String × Json) :=
  match v with
  | none => []
  | some s => [(name, Json.str s)]

/-- JSON serialization of a play record (the local autoincrement `id`
is omitted from the model, as in `PlayRecord` above). -/
def playRecordToJson (r : PlayRecord) : Json :=
  Json.obj ([("songId", Json.str r.songId), ("songTitle", Json.str r.songTitle),
    ("artistId", Json.str r.artistId), ("artistName", Json.str r.artistName)]
    ++ jsonOfOptStr "artistImageUrl" r.artistImageUrl
    ++ jsonOfOptStr "albumName" r.albumName
    ++ jsonOfOptStr "thumbnailUrl" r.thumbnailUrl
    ++ [("timestamp", Json.num r.timestamp),
      ("durationListened", Json.num r.durationListened),
      ("totalDuration", Json.num r.totalDuration),
      ("skipped", Json.bool r.skipped),
      ("completed", Json.bool r.completed)])

/-- JSON serialization of a daily aggregate. -/
def dailyAggregateToJson (a : DailyAggregate) : Json :=
  Json.obj [("date", Json.str a.date), ("totalMinutes", Json.num a.totalMinutes),
    ("songsPlayed", Json.num a.songsPlayed),
    ("uniqueSongs", Json.num a.uniqueSongs),
    ("uniqueArtists", Json.num a.uniqueArtists),
    ("topSongs", Json.arr (a.topSongs.map fun t =>
      Json.obj [("id", Json.str t.1), ("title", Json.str t.2.1),
        ("plays", Json.num t.2.2)])),
    ("topArtists", Json.arr (a.topArtists.map fun t =>
      Json.obj [("id", Json.str t.1), ("name", Json.str t.2.1),
        ("plays", Json.num t.2.2)])),
    ("genreBreakdown", Json.obj (a.genreBreakdown.map fun p =>
      (p.1, Json.num p.2))),
    ("hourlyBreakdown", Json.arr (a.hourlyBreakdown.map fun n => Json.num n)),
    ("skipCount", Json.num a.skipCount)]

/-- JSON serialization of a monthly aggregate. -/
def monthlyAggregateToJson (a : MonthlyAggregate) : Json :=
  Json.obj [("yearMonth", Json.str a.yearMonth),
    ("totalMinutes", Json.num a.totalMinutes),
    ("topSongs", Json.arr (a.topSongs.map fun t =>
      Json.obj [("id", Json.str t.1), ("title", Json.str t.2.1),
        ("artist", Json.str t.2.2.1), ("plays", Json.num t.2.2.2)])),
    ("topArtists", Json.arr (a.topArtists.map fun t =>
      Json.obj [("id", Json.str t.1), ("name", Json.str t.2.1),
        ("minutes", Json.num t.2.2)])),
    ("genreBreakdown", Json.obj (a.genreBreakdown.map fun p =>
      (p.1, Json.num p.2))),
    ("daysActive", Json.num a.daysActive)]

/-- JSON serialization of the streak record (`null` when absent; the
`lastListenDate` day index stands for the stored date string, per the
date convention above). -/
def streakToJson : Option Streak → Json
  | none => Json.null
  | some s => Json.obj [("lastListenDate", Json.num s.lastListenDate),
      ("currentStreak", Json.num s.currentStreak)]

/-- JSON value of `JSON.stringify(merged, null, 2)` for a merged export
bundle: by construction always a JSON object, whatever the bundle
holds. -/
def exportBundleToJson (b : ExportBundle) : Json :=
  Json.obj [("version", Json.num b.version),
    ("exportDate", Json.num b.exportDate),
    ("playRecords", Json.arr (b.playRecords.map playRecordToJson)),
    ("dailyAggregates", Json.obj (b.dailyAggregates.map fun p =>
      (p.1, dailyAggregateToJson p.2))),
    ("monthlyAggregates", Json.obj (b.monthlyAggregates.map fun p =>
      (p.1, monthlyAggregateToJson p.2))),
    ("streak", streakToJson b.streak)]

theorem parseExport_exportData_date (db : DatabaseSchema) (now : ℚ) :
    (parseExport (some (exportData db now))).exportDate = now := rfl

/-- The `importData` invocation performed by one reconciliation pass of
`syncDriveNow` after the remote file was downloaded: `none` when the
branch taken imports nothing (hashes equal, or push), `some arg` when
the pass calls `this.db.importData` on a string whose parse result is
`arg`.  The branch is the one `syncDriveNowDecision` takes on the same
inputs, with the local side's hash-stage inputs spelled out: the local
export is `exportData localDb localNow` (a fresh `db.exportData()`
serialization, so its parse result is its own JSON value), the remote
parse result is `remoteJson`, and the two `exportDate` inputs are those
of `parseExport` on each side.  In the merge branch the source imports
`JSON.stringify(mergeExports(...), null, 2)`, whose parse result is the
serialized merged bundle — always a JSON object for every bundle, so
the merged bundle is abstracted as the parameter `merged`; in the pull
branch the source imports the downloaded `remoteJson` itself. -/
def syncDriveNowImportArg (localDb : DatabaseSchema) (localNow : ℚ)
    (remoteJson : Option Json) (localHash remoteHash lastSyncHash : String)
    (merged : ExportBundle) : Option (Option Json) :=
  match (syncDriveNowDecision localHash remoteHash lastSyncHash
      (parseExport (some (exportData localDb localNow))).exportDate
      (parseExport remoteJson).exportDate).action with
  | SyncAction.mergeChanges => some (some (exportBundleToJson merged))
  | SyncAction.pull => some remoteJson
  | _ => none

section ImportExportTheorems

/-- C3 counterexample: for an unparseable import input,
`StatsDatabase.importData` does not fall back to the empty canonical
schema — `JSON.parse` throws outside any catch, so the import raises
(no document is produced) instead of importing the empty schema. -/
theorem importData_raises_on_corrupt_input :
    importData none = none ∧
      importData none ≠ some emptyDatabaseSchema := by
  exact ⟨rfl, by simp [importData]⟩

/-- C3 amended: only the merge-input path tolerates corrupt JSON — a
`JSON.parse` failure inside `parseExport` falls back to export date 0
with the empty canonical schema, while `StatsDatabase.importData`
propagates the parse error; on any successfully parsed non-null value,
however, `importData` cannot fail, and a sync pass (whose fresh local
export carries a nonnegative `exportDate`) only ever invokes
`importData` on such values — reexported merge output, always a JSON
object, or remote JSON whose `exportDate` exceeded the local one, which
a corrupt remote (export date 0 after fallback) can never do — so every
`importData` call a pass makes succeeds, and a sync pass still never
fails solely because a prior export was malformed. -/
theorem parseExport_fallback_and_importData (input : Option Json) :
    (input = none → parseExport input = ⟨0, emptyExportDataJson⟩) ∧
    importData none = none ∧
    (∀ j : Json, j ≠ Json.null → (importData (some j)).isSome = true) ∧
    (∀ (localDb : DatabaseSchema) (localNow : ℚ) (remoteJson : Option Json)
      (localHash remoteHash lastSyncHash : String) (merged : ExportBundle),
      0 ≤ localNow →
      ∀ arg, syncDriveNowImportArg localDb localNow remoteJson localHash
        remoteHash lastSyncHash merged = some arg →
      (importData arg).isSome = true) := by
  refine ⟨?_, rfl, ?_, ?_⟩
  · intro h
    subst h
    rfl
  · intro j hj
    cases j with
    | null => exact absurd rfl hj
    | bool b => rfl
    | num q => rfl
    | str s => rfl
    | arr xs => rfl
    | obj fields => rfl
  · intro localDb localNow remoteJson localHash remoteHash lastSyncHash
      merged h0 arg harg
    unfold syncDriveNowImportArg syncDriveNowDecision at harg
    by_cases h1 : remoteHash = localHash
    · rw [if_pos h1] at harg
      simp at harg
    · rw [if_neg h1] at harg
      by_cases h2 : (lastSyncHash ≠ "" ∧ localHash ≠ lastSyncHash) ∧
          (lastSyncHash ≠ "" ∧ remoteHash ≠ lastSyncHash)
      · rw [if_pos h2] at harg
        simp only [Option.some.injEq] at harg
        rw [← harg]
        rfl
      · rw [if_neg h2] at harg
        by_cases h3 : (parseExport (some (exportData localDb localNow))).exportDate
            < (parseExport remoteJson).exportDate
        · rw [if_pos h3] at harg
          simp only [Option.some.injEq] at harg
          subst harg
          cases remoteJson with
          | none =>
            rw [parseExport_exportData_date] at h3
            exact absurd h3 (not_lt.mpr h0)
          | some j =>
            cases j with
            | null =>
              rw [parseExport_exportData_date] at h3
              exact absurd h3 (not_lt.mpr h0)
            | bool b => rfl
            | num q => rfl
            | str s => rfl
            | arr xs => rfl
            | obj fields => rfl
        · rw [if_neg h3] at harg
          simp at harg

/-- Witness for C3 amended at concrete inputs: the unparseable input
falls back in `parseExport`, a parsed object imports successfully, and
a concrete pull-branch pass (local export date 5, remote export
date 9) feeds `importData` a value on which it succeeds. -/
theorem parseExport_fallback_and_importData_witness :
    parseExport none = ⟨0, emptyExportDataJson⟩ ∧
    (importData (some (Json.obj [("playRecords", Json.arr [])]))).isSome
      = true ∧
    (importData (some (Json.obj [("exportDate", Json.num 9)]))).isSome
      = true := by
  refine ⟨?_, ?_, ?_⟩
  · exact (parseExport_fallback_and_importData none).1 rfl
  · exact (parseExport_fallback_and_importData
      (some (Json.obj [("playRecords", Json.arr [])]))).2.2.1
      (Json.obj [("playRecords", Json.arr [])]) (by intro h; cases h)
  · exact (parseExport_fallback_and_importData none).2.2.2
      emptyDatabaseSchema 5 (some (Json.obj [("exportDate", Json.num 9)]))
      "a" "b" "a" ⟨1, 0, [], [], [], none⟩ (by norm_num)
      (some (Json.obj [("exportDate", Json.num 9)])) rfl

/-- C10: importing the export of any database state whose four fields
have their schema shapes (an array of records, two object maps, and an
object-or-null streak) restores exactly those four fields, the
`version` and `exportDate` wrapper fields being dropped on import. -/
theorem exportData_importData_round_trip (db : DatabaseSchema) (now : ℚ)
    (hp : db.playRecords.isArr = true)
    (hd : db.dailyAggregates.isObj = true)
    (hm : db.monthlyAggregates.isObj = true)
    (hs : db.streak.isObj = true ∨ db.streak = Json.null) :
    importData (some (exportData db now)) = some db := by
  obtain ⟨p, d, m, s⟩ := db
  simp only at hp hd hm hs
  cases p <;> try simp [Json.isArr] at hp
  cases d <;> try simp [Json.isObj] at hd
  cases m <;> try simp [Json.isObj] at hm
  rcases hs with hs | hs
  · cases s <;> try simp [Json.isObj] at hs
    rfl
  · subst hs
    rfl

/-- Witness for C10 at a concrete one-record database state. -/
theorem exportData_importData_round_trip_witness :
    importData (some (exportData
        ⟨Json.arr [Json.obj [("songId", Json.str "s1")]],
          Json.obj [("2024-01-01", Json.num 3)], Json.obj [],
          Json.null⟩ 1700000000000)) =
      some ⟨Json.arr [Json.obj [("songId", Json.str "s1")]],
        Json.obj [("2024-01-01", Json.num 3)], Json.obj [], Json.null⟩ :=
  exportData_importData_round_trip
    ⟨Json.arr [Json.obj [("songId", Json.str "s1")]],
      Json.obj [("2024-01-01", Json.num 3)], Json.obj [], Json.null⟩
    1700000000000 rfl rfl rfl (Or.inr rfl)

end ImportExportTheorems
